import Mathlib

/-!
Verification of the `FastFileWriter` rotating log writer (`file_fast.go`).

The Go code is shallowly embedded: the mutable fields `size` (an `int64`
updated atomically) and `file` (an `atomic.Value` holding a `*os.File`)
become an explicit `WriterState`; the outcomes of the operating-system
calls made during one operation (open, symlink, glob, identity lookups)
are supplied by an `Env` record; concurrent interference on the lock-free
fast path is represented by an explicit `midStore` parameter.  A result of
`none` models a Go runtime panic.
-/

namespace FastLog

/-- Calendar time at second precision, the granularity of the Go layout
`".2006-01-02T15-04-05"`. -/
structure DateTime where
  year : Nat
  month : Nat
  day : Nat
  hour : Nat
  minute : Nat
  second : Nat
deriving DecidableEq

/-- Value of a Go `time.Time`: the same instant viewed in UTC and in the
local zone.  `now.UTC()` selects the `utc` view; formatting without that
call uses the `loc` view. -/
structure GoTime where
  utc : DateTime
  loc : DateTime
deriving DecidableEq

/-- Decimal digit character, as produced by Go integer formatting. -/
def digitChar (n : Nat) : Char := Char.ofNat (48 + n)

/-- Last `k` decimal digits of `n`, zero padded to exactly `k` characters
(most significant first). -/
def padDigits : Nat → Nat → List Char
  | 0, _ => []
  | k + 1, n => padDigits k (n / 10) ++ [digitChar (n % 10)]

/-- Model of Go `appendInt` with fixed width: decimal text of `n`, zero
padded on the left to at least `width` characters. -/
def appendIntChars (width n : Nat) : List Char :=
  if n < 10 ^ width then padDigits width n else Nat.toDigits 10 n

/-- Character sequence produced by `now.Format(".2006-01-02T15-04-05")`:
a leading dot, 4-digit year, then 2-digit month, day, hour, minute and
second with the literal separators of the layout. -/
def stampChars (t : DateTime) : List Char :=
  '.' :: (appendIntChars 4 t.year ++ '-' ::
    (appendIntChars 2 t.month ++ '-' ::
      (appendIntChars 2 t.day ++ 'T' ::
        (appendIntChars 2 t.hour ++ '-' ::
          (appendIntChars 2 t.minute ++ '-' :: appendIntChars 2 t.second)))))

/-- String form of the timestamp infix. -/
def formatStamp (t : DateTime) : String := String.mk (stampChars t)

/-- Scan of `filepath.Ext` over the reversed path: walking backwards from
the end, stop at a path separator with no extension, or return the suffix
starting at the first dot found.  `acc` holds the characters already
scanned, in original order. -/
def extScan : List Char → List Char → List Char
  | _, [] => []
  | acc, c :: rest =>
    if c = '/' then []
    else if c = '.' then c :: acc
    else extScan (c :: acc) rest

/-- Model of `filepath.Ext`: the suffix of `p` beginning at the final dot
of the final slash-separated element, or the empty string. -/
def filepathExt (p : String) : String := String.mk (extScan [] p.data.reverse)

/-- The slice `p[0 : len(p)-len(Ext(p))]` used as the stem of backup
names. -/
def stemOf (p : String) : String :=
  String.mk (p.data.take (p.data.length - (filepathExt p).data.length))

/-- Configuration fields of `FastFileWriter`; the two mutable fields
(`size` and the `atomic.Value` file cell) live in `WriterState`. -/
structure FastFileWriter where
  Filename : String
  MaxSize : Int
  MaxBackups : Int
  FileMode : Nat
  LocalTime : Bool
  HostName : Bool
  ProcessID : Bool
deriving DecidableEq

/-- Linux values of the open flags used by the writer. -/
def osO_WRONLY : Nat := 1

/-- Flag `os.O_CREATE`. -/
def osO_CREATE : Nat := 64

/-- Flag `os.O_APPEND`. -/
def osO_APPEND : Nat := 1024

/-- Result triple of `openinfo`: the backup file name, the open flags and
the permission bits. -/
structure OpenInfo where
  filename : String
  flag : Nat
  perm : Nat
deriving DecidableEq

/-- View of a `GoTime` selected by `openinfo`: the code converts to UTC
exactly when `LocalTime` is unset. -/
def FastFileWriter.selTime (w : FastFileWriter) (t : GoTime) : DateTime :=
  if w.LocalTime then t.loc else t.utc

/-- Embedding of `FastFileWriter.openinfo`: splits the target into stem
and extension, inserts the formatted timestamp, optionally appends host
name and process id, and defaults the permission bits to `0644`. -/
def FastFileWriter.openinfo (w : FastFileWriter) (hostname pid : String) (now : GoTime) :
    OpenInfo :=
  let t := w.selTime now
  let ext := filepathExt w.Filename
  let stem := stemOf w.Filename
  let base := stem ++ formatStamp t
  let filename :=
    if w.HostName then
      if w.ProcessID then base ++ "." ++ hostname ++ "-" ++ pid ++ ext
      else base ++ "." ++ hostname ++ ext
    else
      if w.ProcessID then base ++ "." ++ pid ++ ext
      else base ++ ext
  let flag := osO_APPEND + osO_CREATE + osO_WRONLY
  let perm := if w.FileMode = 0 then 0o644 else w.FileMode
  ⟨filename, flag, perm⟩

/-- An open file object (`*os.File`): its path and whether `Close` has
been called on it. -/
structure Handle where
  name : String
  closed : Bool
deriving DecidableEq

/-- Mutable state of one writer: the byte counter `size` and the
`atomic.Value` cell `file` (`none` = nothing was ever stored). -/
structure WriterState where
  size : Int
  file : Option Handle
deriving DecidableEq

/-- Outcomes of the operating-system calls and the process identity seen
during one operation. -/
structure Env where
  hostname : String
  pid : String
  openOk : Bool
  symlinkOk : Bool
  sudoUID : Int
  sudoGID : Int
  euid : Int
  globNames : List String
deriving DecidableEq

/-- Errors surfaced by the embedded file operations. -/
inductive WErr where
  | errClosed
  | openFailed
deriving DecidableEq

/-- Model of `(*os.File).Write`: a closed handle rejects the write with
`os.ErrClosed`; an open handle accepts all `p` bytes. -/
def fileWrite (h : Handle) (p : Nat) : Nat × Option WErr :=
  if h.closed then (0, some .errClosed) else (p, none)

/-- Computable lexicographic comparison of character lists; agrees with
the `<` order on `String` (see `strLtB_iff`). -/
def charListLtB : List Char → List Char → Bool
  | [], [] => false
  | [], _ :: _ => true
  | _ :: _, [] => false
  | a :: as, b :: bs => if a < b then true else if b < a then false else charListLtB as bs

/-- Boolean form of the `<` order on `String`. -/
def strLtB (a b : String) : Bool := charListLtB a.data b.data

/-- Insertion step for `sortStrings`. -/
def insertString (x : String) : List String → List String
  | [] => [x]
  | y :: ys => if strLtB x y then x :: y :: ys else y :: insertString x ys

/-- Model of `sort.Strings`: ascending lexicographic sort. -/
def sortStrings (l : List String) : List String := l.foldr insertString []

/-- Retention loop of `rotate` (lines 113-117): when the glob matched at
least one name, delete `names[i]` for every `0 ≤ i < len(names)-MaxBackups-1`.
Returns `(deleted, remaining)`, or `none` when the loop bound exceeds the
list length and the indexing panics. -/
def sweepGo (maxBackups : Int) (names : List String) : Option (List String × List String) :=
  if names.length = 0 then some ([], names)
  else
    let bound : Int := (names.length : Int) - maxBackups - 1
    if bound ≤ (names.length : Int) then
      some (names.take bound.toNat, names.drop bound.toNat)
    else none

/-- Observable outcome of one `rotate` call. -/
structure RotateResult where
  st : WriterState
  err : Option WErr
  closedOld : Bool
  symlinked : Bool
  chowned : Bool
  deleted : List String
  kept : List String
deriving DecidableEq

/-- Embedding of the private `rotate`: open the new backup (aborting on
failure with the state untouched), publish the new handle, zero the
counter, close the old handle if one existed, repoint the symlink and fix
ownership with all errors dropped, then run the retention sweep on the
sorted glob matches.  `none` models the panic of an out-of-range sweep. -/
def FastFileWriter.rotate (w : FastFileWriter) (st : WriterState) (now : GoTime) (env : Env) :
    Option RotateResult :=
  if env.openOk then
    let file : Handle := ⟨(w.openinfo env.hostname env.pid now).filename, false⟩
    let oldfile := st.file
    let st1 : WriterState := ⟨0, some file⟩
    let chowned := env.sudoUID != 0 && env.sudoGID != 0 && env.euid == 0
    match sweepGo w.MaxBackups (sortStrings env.globNames) with
    | none => none
    | some (deleted, kept) =>
      some ⟨st1, none, oldfile.isSome, env.symlinkOk, chowned, deleted, kept⟩
  else some ⟨st, some .openFailed, false, false, false, [], []⟩

/-- Embedding of the public `Rotate`: `rotate` under the mutex. -/
def FastFileWriter.Rotate (w : FastFileWriter) (st : WriterState) (now : GoTime) (env : Env) :
    Option RotateResult :=
  w.rotate st now env

/-- Result of a successful `create`: the new handle, the new state, and
whether the symlink call succeeded (its error is dropped by the code). -/
structure CreateResult where
  file : Handle
  st : WriterState
  symlinked : Bool
deriving DecidableEq

/-- Embedding of the private `create`: open the backup file named by
`openinfo` (propagating an open failure), store it in the cell, zero the
counter, and attempt the symlink with the error discarded. -/
def FastFileWriter.create (w : FastFileWriter) (now : GoTime) (env : Env) :
    Except WErr CreateResult :=
  if env.openOk then
    let file : Handle := ⟨(w.openinfo env.hostname env.pid now).filename, false⟩
    Except.ok ⟨file, ⟨0, some file⟩, env.symlinkOk⟩
  else Except.error .openFailed

/-- Embedding of `Close`: under the mutex, close the stored handle if one
exists (the cell keeps holding it) and zero the counter; closing an
already-closed handle reports `os.ErrClosed`. -/
def FastFileWriter.Close (st : WriterState) : WriterState × Option WErr :=
  match st.file with
  | none => (st, none)
  | some h => (⟨0, some ⟨h.name, true⟩⟩, if h.closed then some .errClosed else none)

/-- One fully observable `Write` outcome. -/
structure WriteResult where
  n : Nat
  err : Option WErr
  st : WriterState
  created : Bool
  rotated : Bool
deriving DecidableEq

/-- Size epilogue of `Write` (lines 55-62): the atomic add of `n` happens
only when `MaxSize > 0` (short-circuit evaluation), then the threshold is
re-checked under the mutex before rotating; the `rotate` error is
discarded. -/
def FastFileWriter.afterWrite (w : FastFileWriter) (st : WriterState) (n : Nat)
    (err : Option WErr) (created : Bool) (now : GoTime) (env : Env) : Option WriteResult :=
  if 0 < w.MaxSize then
    if w.MaxSize < st.size + n then
      if w.MaxSize < st.size + n then
        match w.rotate ⟨st.size + n, st.file⟩ now env with
        | none => none
        | some r => some ⟨n, err, r.st, created, true⟩
      else some ⟨n, err, ⟨st.size + n, st.file⟩, created, false⟩
    else some ⟨n, err, ⟨st.size + n, st.file⟩, created, false⟩
  else some ⟨n, err, st, created, false⟩

/-- Embedding of `Write`.  `midStore` is the handle another thread stored
between the fast-path load and the mutex acquisition (`none` = no
interference); the overall result is `none` when the Go code panics.  On a
loaded handle the write is retried once on `os.ErrClosed`; on an empty
cell the double-checked section runs `create` only when the re-check still
sees no handle — otherwise the local `file` variable keeps its nil value
and the final type assertion panics. -/
def FastFileWriter.Write (w : FastFileWriter) (st : WriterState) (p : Nat)
    (midStore : Option Handle) (now : GoTime) (env : Env) : Option WriteResult :=
  match st.file with
  | some h =>
    let r1 := fileWrite h p
    let r2 := if r1.2 = some WErr.errClosed then fileWrite h p else r1
    w.afterWrite st r2.1 r2.2 false now env
  | none =>
    match midStore with
    | some _ => none
    | none =>
      match w.create now env with
      | .error e => some ⟨0, some e, st, false, false⟩
      | .ok cr =>
        let r := fileWrite cr.file p
        w.afterWrite cr.st r.1 r.2 true now env

/-- One forced rotation against a disk currently holding `disk` backup
files: the glob sees the file just created by the rotation plus the
existing backups, and the new disk contents are the files the sweep
kept. -/
def rotationStep (w : FastFileWriter) (host pid : String) (now : GoTime)
    (disk : List String) : Option (List String) :=
  match w.rotate ⟨0, none⟩ now
      ⟨host, pid, true, true, 0, 0, 1000, (w.openinfo host pid now).filename :: disk⟩ with
  | none => none
  | some r => some r.kept

/-- Sequential rotations at the given times, starting from the given disk
contents. -/
def runRotations (w : FastFileWriter) (host pid : String) :
    List GoTime → List String → Option (List String)
  | [], disk => some disk
  | t :: ts, disk =>
    match rotationStep w host pid t disk with
    | none => none
    | some d => runRotations w host pid ts d

/-- Chronological strict order on second-precision calendar times. -/
def DateTime.lt (a b : DateTime) : Prop :=
  a.year < b.year ∨ (a.year = b.year ∧ (a.month < b.month ∨ (a.month = b.month ∧
    (a.day < b.day ∨ (a.day = b.day ∧ (a.hour < b.hour ∨ (a.hour = b.hour ∧
      (a.minute < b.minute ∨ (a.minute = b.minute ∧ a.second < b.second)))))))))

instance (a b : DateTime) : Decidable (a.lt b) := by
  unfold DateTime.lt
  exact inferInstance

/-- Field bounds under which every timestamp component fits its padded
width (any real calendar time satisfies them). -/
def DateTime.inRange (t : DateTime) : Prop :=
  t.year < 10 ^ 4 ∧ t.month < 10 ^ 2 ∧ t.day < 10 ^ 2 ∧ t.hour < 10 ^ 2 ∧
    t.minute < 10 ^ 2 ∧ t.second < 10 ^ 2

instance (t : DateTime) : Decidable t.inRange := by
  unfold DateTime.inRange
  exact inferInstance

theorem strLtB_iff (a b : String) : strLtB a b = true ↔ a < b := by
  rw [String.lt_iff_toList_lt]
  show charListLtB a.data b.data = true ↔ List.Lex (· < ·) a.data b.data
  generalize a.data = as
  generalize b.data = bs
  induction as generalizing bs with
  | nil =>
    cases bs with
    | nil => simp [charListLtB]
    | cons y ys => simpa [charListLtB] using List.Lex.nil
  | cons x xs ih =>
    cases bs with
    | nil => simp [charListLtB]
    | cons y ys =>
      by_cases hxy : x < y
      · simp [charListLtB, hxy, List.Lex.rel]
      · by_cases hyx : y < x
        · simp only [charListLtB, hxy, hyx, if_true, if_false]
          constructor
          · intro h
            exact absurd h (by decide)
          · intro h
            cases h with
            | cons h2 => exact absurd rfl (ne_of_gt hyx)
            | rel h2 => exact absurd h2 hxy
        · have hxy2 : x = y := le_antisymm (not_lt.mp hyx) (not_lt.mp hxy)
          subst hxy2
          simp only [charListLtB, hxy, if_false, if_neg hyx]
          rw [ih ys, List.Lex.cons_iff]

theorem padDigits_length (k : Nat) : ∀ n, (padDigits k n).length = k := by
  induction k with
  | zero => intro n; rfl
  | succ k ih => intro n; simp [padDigits, ih]

theorem appendIntChars_length {k n : Nat} (h : n < 10 ^ k) :
    (appendIntChars k n).length = k := by
  rw [appendIntChars, if_pos h, padDigits_length]

theorem lex_append_of_length_eq {as bs u v : List Char}
    (h : List.Lex (· < ·) as bs) (hlen : as.length = bs.length) :
    List.Lex (· < ·) (as ++ u) (bs ++ v) := by
  induction h with
  | nil => simp at hlen
  | cons h2 ih => exact List.Lex.cons (ih (by simpa using hlen))
  | rel h2 => exact List.Lex.rel h2

theorem digitChar_lt {a b : Nat} (hab : a < b) (hb : b < 10) :
    digitChar a < digitChar b := by
  have h : ∀ x : Fin 10, ∀ y : Fin 10, x.val < y.val → digitChar x.val < digitChar y.val := by
    decide
  exact h ⟨a, lt_trans hab hb⟩ ⟨b, hb⟩ hab

theorem padDigits_lt (k : Nat) : ∀ {a b : Nat}, a < b → b < 10 ^ k →
    List.Lex (· < ·) (padDigits k a) (padDigits k b) := by
  induction k with
  | zero =>
    intro a b hab hb
    simp only [Nat.pow_zero] at hb
    omega
  | succ k ih =>
    intro a b hab hb
    have hdiv : a / 10 ≤ b / 10 := Nat.div_le_div_right (Nat.le_of_lt hab)
    rcases Nat.lt_or_ge (a / 10) (b / 10) with h | h
    · have hb10 : b / 10 < 10 ^ k := by
        rw [Nat.div_lt_iff_lt_mul (by norm_num : (0 : Nat) < 10)]
        calc b < 10 ^ (k + 1) := hb
          _ = 10 ^ k * 10 := by ring
      exact lex_append_of_length_eq (ih h hb10) (by simp [padDigits_length])
    · have heq : a / 10 = b / 10 := Nat.le_antisymm hdiv h
      have hmod : a % 10 < b % 10 := by
        have ha2 := Nat.div_add_mod a 10
        have hb2 := Nat.div_add_mod b 10
        omega
      have hone : List.Lex (· < ·) [digitChar (a % 10)] [digitChar (b % 10)] :=
        List.Lex.rel (digitChar_lt hmod (Nat.mod_lt _ (by norm_num)))
      show List.Lex (· < ·) (padDigits k (a / 10) ++ [digitChar (a % 10)])
        (padDigits k (b / 10) ++ [digitChar (b % 10)])
      rw [heq]
      exact List.Lex.append_left _ hone _

theorem appendIntChars_lt {k a b : Nat} (hab : a < b) (hb : b < 10 ^ k) :
    List.Lex (· < ·) (appendIntChars k a) (appendIntChars k b) := by
  have ha : a < 10 ^ k := lt_trans hab hb
  rw [appendIntChars, appendIntChars, if_pos ha, if_pos hb]
  exact padDigits_lt k hab hb

theorem stampChars_length {t : DateTime} (h : t.inRange) : (stampChars t).length = 20 := by
  obtain ⟨hy, hmo, hd, hh, hmi, hs⟩ := h
  simp [stampChars, appendIntChars_length hy, appendIntChars_length hmo,
    appendIntChars_length hd, appendIntChars_length hh, appendIntChars_length hmi,
    appendIntChars_length hs]

theorem stampChars_lt {t1 t2 : DateTime} (h1 : t1.inRange) (h2 : t2.inRange)
    (hlt : t1.lt t2) : List.Lex (· < ·) (stampChars t1) (stampChars t2) := by
  obtain ⟨hy1, hmo1, hd1, hh1, hmi1, hs1⟩ := h1
  obtain ⟨hy2, hmo2, hd2, hh2, hmi2, hs2⟩ := h2
  unfold stampChars
  rcases hlt with hy | ⟨ey, hmo | ⟨emo, hd | ⟨ed, hh | ⟨eh, hmi | ⟨emi, hs⟩⟩⟩⟩⟩
  · exact List.Lex.cons (lex_append_of_length_eq (appendIntChars_lt hy hy2)
      (by rw [appendIntChars_length (lt_trans hy hy2), appendIntChars_length hy2]))
  · rw [ey]
    exact List.Lex.cons (List.Lex.append_left _ (List.Lex.cons
      (lex_append_of_length_eq (appendIntChars_lt hmo hmo2)
        (by rw [appendIntChars_length (lt_trans hmo hmo2), appendIntChars_length hmo2]))) _)
  · rw [ey, emo]
    exact List.Lex.cons (List.Lex.append_left _ (List.Lex.cons
      (List.Lex.append_left _ (List.Lex.cons
        (lex_append_of_length_eq (appendIntChars_lt hd hd2)
          (by rw [appendIntChars_length (lt_trans hd hd2), appendIntChars_length hd2]))) _)) _)
  · rw [ey, emo, ed]
    exact List.Lex.cons (List.Lex.append_left _ (List.Lex.cons
      (List.Lex.append_left _ (List.Lex.cons
        (List.Lex.append_left _ (List.Lex.cons
          (lex_append_of_length_eq (appendIntChars_lt hh hh2)
            (by rw [appendIntChars_length (lt_trans hh hh2),
              appendIntChars_length hh2]))) _)) _)) _)
  · rw [ey, emo, ed, eh]
    exact List.Lex.cons (List.Lex.append_left _ (List.Lex.cons
      (List.Lex.append_left _ (List.Lex.cons
        (List.Lex.append_left _ (List.Lex.cons
          (List.Lex.append_left _ (List.Lex.cons
            (lex_append_of_length_eq (appendIntChars_lt hmi hmi2)
              (by rw [appendIntChars_length (lt_trans hmi hmi2),
                appendIntChars_length hmi2]))) _)) _)) _)) _)
  · rw [ey, emo, ed, eh, emi]
    exact List.Lex.cons (List.Lex.append_left _ (List.Lex.cons
      (List.Lex.append_left _ (List.Lex.cons
        (List.Lex.append_left _ (List.Lex.cons
          (List.Lex.append_left _ (List.Lex.cons
            (List.Lex.append_left _ (List.Lex.cons
              (appendIntChars_lt hs hs2)) _)) _)) _)) _)) _)

theorem formatStamp_data (d : DateTime) : (formatStamp d).data = stampChars d := rfl

theorem strLt_of_data_lex {a b : String} (h : List.Lex (· < ·) a.data b.data) : a < b := by
  rw [String.lt_iff_toList_lt]
  exact h

/-- Claim C7: for a fixed configuration and target path, and any two times
whose selected (UTC or local) second-precision calendar views are in range
and chronologically ordered, the generated backup filename of the earlier
time is strictly smaller in the plain lexicographic string order. -/
theorem backup_names_sort_chronologically (w : FastFileWriter) (host pid : String)
    (t1 t2 : GoTime) (h1 : (w.selTime t1).inRange) (h2 : (w.selTime t2).inRange)
    (hlt : (w.selTime t1).lt (w.selTime t2)) :
    (w.openinfo host pid t1).filename < (w.openinfo host pid t2).filename := by
  have hstamp := stampChars_lt h1 h2 hlt
  have hlen : (stampChars (w.selTime t1)).length = (stampChars (w.selTime t2)).length := by
    rw [stampChars_length h1, stampChars_length h2]
  unfold FastFileWriter.openinfo
  cases hH : w.HostName <;> cases hP : w.ProcessID <;>
    simp only [hH, hP, if_true, if_false, Bool.false_eq_true, ite_false, ite_true] <;>
    apply strLt_of_data_lex <;>
    simp only [String.data_append, formatStamp_data, List.append_assoc] <;>
    exact List.Lex.append_left _ (lex_append_of_length_eq hstamp hlen) _

/-- Witness for C7 at a concrete configuration and pair of times. -/
theorem backup_names_sort_chronologically_witness :
    (FastFileWriter.selTime ⟨"/var/log/app.log", 0, 2, 0, false, true, true⟩
        ⟨⟨2024, 5, 1, 0, 0, 0⟩, ⟨2024, 5, 1, 2, 0, 0⟩⟩).inRange ∧
    (FastFileWriter.openinfo ⟨"/var/log/app.log", 0, 2, 0, false, true, true⟩ "h" "123"
        ⟨⟨2024, 5, 1, 0, 0, 0⟩, ⟨2024, 5, 1, 2, 0, 0⟩⟩).filename <
      (FastFileWriter.openinfo ⟨"/var/log/app.log", 0, 2, 0, false, true, true⟩ "h" "123"
        ⟨⟨2024, 5, 2, 0, 0, 0⟩, ⟨2024, 5, 2, 2, 0, 0⟩⟩).filename :=
  ⟨by decide, backup_names_sort_chronologically _ "h" "123" _ _
    (by decide) (by decide) (by decide)⟩

theorem extScan_suffix : ∀ (r acc : List Char),
    extScan acc r = [] ∨ extScan acc r <:+ (r.reverse ++ acc) := by
  intro r
  induction r with
  | nil => intro acc; exact Or.inl rfl
  | cons c rest ih =>
    intro acc
    by_cases h1 : c = '/'
    · exact Or.inl (by simp [extScan, h1])
    · by_cases h2 : c = '.'
      · right
        have hres : extScan acc (c :: rest) = c :: acc := by simp [extScan, h1, h2]
        rw [hres]
        exact ⟨rest.reverse, by simp⟩
      · have hres : extScan acc (c :: rest) = extScan (c :: acc) rest := by
          simp [extScan, h1, h2]
        rcases ih (c :: acc) with h | h
        · exact Or.inl (hres ▸ h)
        · right
          rw [hres]
          have hr : rest.reverse ++ c :: acc = (c :: rest).reverse ++ acc := by simp
          rwa [hr] at h

theorem stem_append_ext (p : String) : stemOf p ++ filepathExt p = p := by
  obtain ⟨d⟩ := p
  have key : ∀ e : List Char, (e = [] ∨ ∃ t, t ++ e = d) →
      d.take (d.length - e.length) ++ e = d := by
    rintro e (rfl | ⟨t, rfl⟩)
    · simp
    · simp [List.length_append, List.take_left]
  have hsuf : extScan [] d.reverse = [] ∨ ∃ t, t ++ extScan [] d.reverse = d := by
    rcases extScan_suffix d.reverse [] with h | h
    · exact Or.inl h
    · right
      obtain ⟨t, ht⟩ := h
      refine ⟨t, ?_⟩
      simpa using ht
  exact congrArg String.mk (key _ hsuf)

/-- Claim C6: the naming function is a pure function of the target path,
the time and the configuration.  Concretely, with host-name and
process-id embedding on, host `h`, pid `123`, target `/var/log/app.log`
and time 2024-05-01T00:00:00 UTC it produces literally
`/var/log/app.2024-05-01T00-00-00.h-123.log`; moreover with `LocalTime`
unset the local view of the clock is irrelevant (the UTC view is
formatted), and stem and extension always recompose to the target path,
giving the documented `<stem><timestamp>[.<host>][.<pid>]<ext>` layout. -/
theorem openinfo_naming_format :
    (FastFileWriter.openinfo ⟨"/var/log/app.log", 0, 0, 0, false, true, true⟩ "h" "123"
        ⟨⟨2024, 5, 1, 0, 0, 0⟩, ⟨2023, 12, 31, 23, 59, 59⟩⟩).filename
      = "/var/log/app.2024-05-01T00-00-00.h-123.log" ∧
    (∀ (w : FastFileWriter) (host pid : String) (u l l' : DateTime),
      w.LocalTime = false →
      w.openinfo host pid ⟨u, l⟩ = w.openinfo host pid ⟨u, l'⟩) ∧
    (∀ p : String, stemOf p ++ filepathExt p = p) := by
  refine ⟨by decide, ?_, stem_append_ext⟩
  intro w host pid u l l' hloc
  unfold FastFileWriter.openinfo FastFileWriter.selTime
  rw [hloc]
  simp only [Bool.false_eq_true, if_false]

/-- Witness for C6: the local-time-irrelevance clause applied at a
concrete configuration and two clock values differing in their local
view. -/
theorem openinfo_naming_format_witness :
    FastFileWriter.openinfo ⟨"/x.log", 0, 0, 0, false, false, false⟩ "h" "1"
        ⟨⟨2024, 1, 2, 3, 4, 5⟩, ⟨2020, 1, 1, 0, 0, 0⟩⟩
      = FastFileWriter.openinfo ⟨"/x.log", 0, 0, 0, false, false, false⟩ "h" "1"
        ⟨⟨2024, 1, 2, 3, 4, 5⟩, ⟨1999, 9, 9, 9, 9, 9⟩⟩ :=
  openinfo_naming_format.2.1 _ "h" "1" _ _ _ rfl

theorem sweepGo_eq_of_nonneg (mb : Int) (names : List String) (hmb : 0 ≤ mb) :
    sweepGo mb names = some (names.take ((names.length : Int) - mb - 1).toNat,
      names.drop ((names.length : Int) - mb - 1).toNat) := by
  unfold sweepGo
  by_cases h0 : names.length = 0
  · rw [if_pos h0]
    have hnil : names = [] := List.length_eq_zero.mp h0
    subst hnil
    simp
  · rw [if_neg h0, if_pos (by omega)]

theorem afterWrite_rotated_iff (w : FastFileWriter) (st : WriterState) (n : Nat)
    (err : Option WErr) (c : Bool) (now : GoTime) (env : Env) (r : WriteResult)
    (hr : w.afterWrite st n err c now env = some r) :
    r.rotated = true ↔ (0 < w.MaxSize ∧ w.MaxSize < st.size + n) := by
  unfold FastFileWriter.afterWrite at hr
  by_cases h1 : 0 < w.MaxSize
  · rw [if_pos h1] at hr
    by_cases h2 : w.MaxSize < st.size + n
    · rw [if_pos h2, if_pos h2] at hr
      rcases hrot : w.rotate ⟨st.size + n, st.file⟩ now env with _ | rr <;> rw [hrot] at hr
      · simp at hr
      · simp only [Option.some.injEq] at hr
        rw [← hr]
        simpa using ⟨h1, h2⟩
    · rw [if_neg h2] at hr
      simp only [Option.some.injEq] at hr
      rw [← hr]
      simpa using fun _ => h2
  · rw [if_neg h1] at hr
    simp only [Option.some.injEq] at hr
    rw [← hr]
    simpa using fun h => absurd h h1

/-- Claim C2 (code bug, evaluated at the failing input): a `Write` that
found no handle at the fast-path load, racing a thread that installed a
handle before the mutex was acquired, panics — the double-checked branch
skips `create`, the local `file` variable keeps its nil value, and the
`file.(*os.File)` type assertion faults instead of writing to the
installed handle. -/
theorem write_race_nil_assertion_panics :
    FastFileWriter.Write ⟨"/tmp/app.log", 0, 2, 0, false, false, false⟩ ⟨0, none⟩ 5
      (some ⟨"/tmp/app.2024-05-01T00-00-01.log", false⟩)
      ⟨⟨2024, 5, 1, 0, 0, 2⟩, ⟨2024, 5, 1, 0, 0, 2⟩⟩
      ⟨"h", "1", true, true, 0, 0, 1000, []⟩ = none := rfl

/-- Claim C1 counterexample: after `Close`, a `Write` does not re-create a
backing file and does not succeed — the cell still holds the closed
handle, the write and its single retry both fail with the file-closed
error, and no new file is created. -/
theorem write_after_close_errs_cex :
    FastFileWriter.Write ⟨"/tmp/app.log", 0, 2, 0, false, false, false⟩
      (FastFileWriter.Close ⟨3, some ⟨"/tmp/app.2024-05-01T00-00-01.log", false⟩⟩).1 5 none
      ⟨⟨2024, 5, 1, 0, 0, 2⟩, ⟨2024, 5, 1, 0, 0, 2⟩⟩
      ⟨"h", "1", true, true, 0, 0, 1000, []⟩
    = some ⟨0, some .errClosed,
        ⟨0, some ⟨"/tmp/app.2024-05-01T00-00-01.log", true⟩⟩, false, false⟩ := by decide

/-- Claim C1 as amended: once the cell holds a closed handle and the
counter is zero (the state `Close` leaves behind), every subsequent
`Write` returns the file-closed error after retrying against the same
closed handle, creates no file, and leaves the state unchanged — the
writer is single-shot with respect to `Close`, not reusable. -/
theorem write_after_close_returns_errClosed (w : FastFileWriter) (st : WriterState)
    (h : Handle) (p : Nat) (now : GoTime) (env : Env)
    (hf : st.file = some h) (hc : h.closed = true) (hs : st.size = 0) :
    w.Write st p none now env = some ⟨0, some .errClosed, st, false, false⟩ := by
  obtain ⟨sz, f⟩ := st
  simp only at hf hs
  subst hf hs
  simp only [FastFileWriter.Write, fileWrite, hc, if_true, FastFileWriter.afterWrite]
  by_cases hms : 0 < w.MaxSize
  · simp only [hms, if_true]
    rw [if_neg (by omega)]
    norm_num
  · simp [hms]

/-- Witness for the amended C1 at a concrete closed-handle state. -/
theorem write_after_close_returns_errClosed_witness :
    FastFileWriter.Write ⟨"/a.log", 5, 1, 0, false, false, false⟩
      ⟨0, some ⟨"/f.log", true⟩⟩ 2 none
      ⟨⟨2024, 1, 1, 0, 0, 0⟩, ⟨2024, 1, 1, 0, 0, 0⟩⟩ ⟨"h", "1", true, true, 0, 0, 0, []⟩
    = some ⟨0, some .errClosed, ⟨0, some ⟨"/f.log", true⟩⟩, false, false⟩ :=
  write_after_close_returns_errClosed _ _ ⟨"/f.log", true⟩ 2 _ _ rfl rfl rfl

/-- Claim C3: `rotate` returns an error exactly when opening the new
backing file fails, and in that case the previous handle and the byte
counter are left untouched (nothing is closed, nothing is deleted); once
the open succeeds, no outcome of the symlink, ownership or retention
operations makes `rotate` return an error. -/
theorem rotate_error_iff_open_failure (w : FastFileWriter) (st : WriterState)
    (now : GoTime) (env : Env) :
    (env.openOk = false →
      w.rotate st now env = some ⟨st, some .openFailed, false, false, false, [], []⟩) ∧
    (env.openOk = true → ∀ r, w.rotate st now env = some r → r.err = none) := by
  constructor
  · intro h
    simp [FastFileWriter.rotate, h]
  · intro h r hr
    rw [FastFileWriter.rotate, h] at hr
    simp only [if_true] at hr
    rcases hsw : sweepGo w.MaxBackups (sortStrings env.globNames) with _ | ⟨del, kp⟩ <;>
      rw [hsw] at hr
    · simp at hr
    · simp only [Option.some.injEq] at hr
      rw [← hr]

/-- Witness for C3 at a concrete failing open: the state, including the
old handle and the counter, is returned unchanged with the open error. -/
theorem rotate_error_iff_open_failure_witness :
    FastFileWriter.rotate ⟨"/a.log", 0, 1, 0, false, false, false⟩
      ⟨7, some ⟨"/a.x.log", false⟩⟩ ⟨⟨2024, 1, 1, 0, 0, 0⟩, ⟨2024, 1, 1, 0, 0, 0⟩⟩
      ⟨"h", "1", false, true, 0, 0, 0, []⟩
    = some ⟨⟨7, some ⟨"/a.x.log", false⟩⟩, some .openFailed, false, false, false, [], []⟩ :=
  (rotate_error_iff_open_failure _ _ _ _).1 rfl

set_option maxRecDepth 10000 in
/-- Claim C4: with `MaxBackups ≥ 0`, the sweep over `N` sorted names
deletes exactly the prefix up to index `N - MaxBackups - 2` and keeps the
newest `min N (MaxBackups + 1)` files; concretely, with `MaxBackups = 2`,
five sequential rotations leave exactly the three newest backups on
disk. -/
theorem retention_sweep_keeps_newest_backups (mb : Int) (names : List String)
    (hmb : 0 ≤ mb) :
    (sweepGo mb names = some (names.take ((names.length : Int) - mb - 1).toNat,
        names.drop ((names.length : Int) - mb - 1).toNat)) ∧
    ((names.drop ((names.length : Int) - mb - 1).toNat).length
        = min names.length (mb.toNat + 1)) ∧
    (runRotations ⟨"/tmp/app.log", 0, 2, 0, false, false, false⟩ "h" "1"
        [⟨⟨2024, 5, 1, 0, 0, 1⟩, ⟨2024, 5, 1, 0, 0, 1⟩⟩,
         ⟨⟨2024, 5, 1, 0, 0, 2⟩, ⟨2024, 5, 1, 0, 0, 2⟩⟩,
         ⟨⟨2024, 5, 1, 0, 0, 3⟩, ⟨2024, 5, 1, 0, 0, 3⟩⟩,
         ⟨⟨2024, 5, 1, 0, 0, 4⟩, ⟨2024, 5, 1, 0, 0, 4⟩⟩,
         ⟨⟨2024, 5, 1, 0, 0, 5⟩, ⟨2024, 5, 1, 0, 0, 5⟩⟩] []
      = some ["/tmp/app.2024-05-01T00-00-03.log", "/tmp/app.2024-05-01T00-00-04.log",
          "/tmp/app.2024-05-01T00-00-05.log"]) := by
  refine ⟨sweepGo_eq_of_nonneg mb names hmb, ?_, by decide⟩
  rw [List.length_drop]
  omega

/-- Witness for C4 at a concrete sorted list and `MaxBackups = 2`. -/
theorem retention_sweep_keeps_newest_backups_witness :
    (0 : Int) ≤ 2 ∧ sweepGo 2 ["a", "b", "c", "d"] = some (["a"], ["b", "c", "d"]) :=
  ⟨by decide, (retention_sweep_keeps_newest_backups 2 ["a", "b", "c", "d"] (by decide)).1⟩

/-- Claim C5 counterexample: with `MaxBackups = -1` the sweep deletes the
file that was just installed as the active handle — the rotation installs
`/tmp/app.2024-05-01T00-00-02.log` and then deletes that very file. -/
theorem sweep_deletes_installed_file_cex :
    (FastFileWriter.rotate ⟨"/tmp/app.log", 0, -1, 0, false, false, false⟩
        ⟨0, some ⟨"/tmp/app.2024-05-01T00-00-01.log", false⟩⟩
        ⟨⟨2024, 5, 1, 0, 0, 2⟩, ⟨2024, 5, 1, 0, 0, 2⟩⟩
        ⟨"h", "1", true, true, 0, 0, 1000, ["/tmp/app.2024-05-01T00-00-02.log"]⟩).map
      (fun r => (r.st.file, r.deleted))
    = some (some ⟨"/tmp/app.2024-05-01T00-00-02.log", false⟩,
        ["/tmp/app.2024-05-01T00-00-02.log"]) := by decide

/-- Claim C5 as amended: for every `MaxBackups ≥ 0` the sweep deletes only
a strict prefix of the sorted names, so the lexicographically newest
matching file (the one just installed) always survives; for negative
`MaxBackups` the code can delete it. -/
theorem sweep_keeps_newest_when_maxBackups_nonneg (mb : Int) (names : List String)
    (hmb : 0 ≤ mb) (hne : names ≠ []) :
    ∃ k, sweepGo mb names = some (names.take k, names.drop k) ∧ k < names.length := by
  refine ⟨((names.length : Int) - mb - 1).toNat, sweepGo_eq_of_nonneg mb names hmb, ?_⟩
  have hlen : 0 < names.length := List.length_pos.mpr hne
  omega

/-- Witness for the amended C5 at `MaxBackups = 0` and one matching file. -/
theorem sweep_keeps_newest_when_maxBackups_nonneg_witness :
    ∃ k, sweepGo 0 ["x"] = some (List.take k ["x"], List.drop k ["x"]) ∧ k < 1 :=
  sweep_keeps_newest_when_maxBackups_nonneg 0 ["x"] (by decide) (by decide)

/-- Claim C8 counterexample: when the open succeeds but the symlink
creation fails, `create` still returns success (the symlink error is
discarded), so "Create fails if the symlink cannot be created" is false;
the new handle is installed as claimed. -/
theorem create_symlink_failure_returns_ok_cex :
    FastFileWriter.create ⟨"/a.log", 0, 1, 0, false, false, false⟩
      ⟨⟨2024, 1, 1, 0, 0, 0⟩, ⟨2024, 1, 1, 0, 0, 0⟩⟩
      ⟨"h", "1", true, false, 0, 0, 0, []⟩
    = Except.ok ⟨⟨"/a.2024-01-01T00-00-00.log", false⟩,
        ⟨0, some ⟨"/a.2024-01-01T00-00-00.log", false⟩⟩, false⟩ := rfl

/-- Claim C8 as amended: `create` fails exactly when the backing file
cannot be opened; a symlink failure produces no error at all, and the
newly opened handle is installed as the active handle regardless of the
symlink outcome. -/
theorem create_error_iff_open_failure (w : FastFileWriter) (now : GoTime) (env : Env) :
    (env.openOk = false → w.create now env = .error .openFailed) ∧
    (env.openOk = true →
      w.create now env = .ok ⟨⟨(w.openinfo env.hostname env.pid now).filename, false⟩,
        ⟨0, some ⟨(w.openinfo env.hostname env.pid now).filename, false⟩⟩,
        env.symlinkOk⟩) := by
  constructor <;> intro h <;> simp [FastFileWriter.create, h]

/-- Witness for the amended C8 at a concrete failing open. -/
theorem create_error_iff_open_failure_witness :
    FastFileWriter.create ⟨"/b.log", 0, 1, 0, false, false, false⟩
      ⟨⟨2024, 1, 1, 0, 0, 0⟩, ⟨2024, 1, 1, 0, 0, 0⟩⟩
      ⟨"h", "1", false, true, 0, 0, 0, []⟩ = .error .openFailed :=
  (create_error_iff_open_failure _ _ _).1 rfl

/-- Claim C9: a `Write` triggers rotation exactly when `MaxSize` is
positive and the updated counter exceeds it (re-checked under the lock);
with `MaxSize = 0` no `Write` ever rotates; and every successful `rotate`
resets the byte counter to zero. -/
theorem write_rotation_trigger (w : FastFileWriter) (st : WriterState) (p : Nat)
    (mid : Option Handle) (now : GoTime) (env : Env) :
    (w.MaxSize = 0 → ∀ r, w.Write st p mid now env = some r → r.rotated = false) ∧
    (∀ h, st.file = some h → h.closed = false →
      ∀ r, w.Write st p none now env = some r →
        (r.rotated = true ↔ 0 < w.MaxSize ∧ w.MaxSize < st.size + p)) ∧
    (env.openOk = true → ∀ r, w.rotate st now env = some r → r.st.size = 0) := by
  refine ⟨?_, ?_, ?_⟩
  · intro hm r hr
    obtain ⟨sz, f⟩ := st
    have hrotiff : ∀ st2 n2 err2 c2, w.afterWrite st2 n2 err2 c2 now env = some r →
        r.rotated = false := by
      intro st2 n2 err2 c2 h2
      have hiff := afterWrite_rotated_iff w st2 n2 err2 c2 now env r h2
      simp [hm] at hiff
      exact hiff
    cases f with
    | some h => exact hrotiff _ _ _ _ hr
    | none =>
      cases mid with
      | some h2 => exact absurd hr (by simp [FastFileWriter.Write])
      | none =>
        rw [FastFileWriter.Write] at hr
        rcases hc : w.create now env with e | cr <;> rw [hc] at hr
        · simp only [Option.some.injEq] at hr
          rw [← hr]
        · exact hrotiff _ _ _ _ hr
  · intro h hst hcl r hr
    obtain ⟨sz, f⟩ := st
    simp only at hst
    subst hst
    rw [FastFileWriter.Write] at hr
    simp only [fileWrite, hcl, Bool.false_eq_true, if_false, reduceCtorEq, ite_false] at hr
    exact afterWrite_rotated_iff w ⟨sz, some h⟩ p none false now env r hr
  · intro ho r hr
    rw [FastFileWriter.rotate, ho] at hr
    simp only [if_true] at hr
    rcases hsw : sweepGo w.MaxBackups (sortStrings env.globNames) with _ | ⟨del, kp⟩ <;>
      rw [hsw] at hr
    · simp at hr
    · simp only [Option.some.injEq] at hr
      rw [← hr]

/-- Witness for C9: a concrete over-threshold write rotates. -/
theorem write_rotation_trigger_witness :
    (FastFileWriter.Write ⟨"/d.log", 3, 1, 0, false, false, false⟩
        ⟨0, some ⟨"/d.x.log", false⟩⟩ 5 none
        ⟨⟨2024, 1, 1, 0, 0, 0⟩, ⟨2024, 1, 1, 0, 0, 0⟩⟩ ⟨"h", "1", true, true, 0, 0, 0, []⟩
      = some ⟨5, none, ⟨0, some ⟨"/d.2024-01-01T00-00-00.log", false⟩⟩, false, true⟩) ∧
    (⟨5, none, ⟨0, some ⟨"/d.2024-01-01T00-00-00.log", false⟩⟩, false, true⟩
        : WriteResult).rotated = true :=
  ⟨by decide,
    ((write_rotation_trigger ⟨"/d.log", 3, 1, 0, false, false, false⟩
        ⟨0, some ⟨"/d.x.log", false⟩⟩ 5 none
        ⟨⟨2024, 1, 1, 0, 0, 0⟩, ⟨2024, 1, 1, 0, 0, 0⟩⟩
        ⟨"h", "1", true, true, 0, 0, 0, []⟩).2.1 ⟨"/d.x.log", false⟩ rfl rfl _
      (by decide)).mpr (by decide)⟩

/-- Claim C10: calling the public `Rotate` before any handle was ever
installed succeeds — no error, a fresh backing file named by `openinfo`
becomes the active handle, the byte counter is zero, and no previous
handle is closed. -/
theorem rotate_without_handle_succeeds (w : FastFileWriter) (st : WriterState)
    (now : GoTime) (env : Env) (r : RotateResult)
    (hf : st.file = none) (ho : env.openOk = true)
    (hr : w.Rotate st now env = some r) :
    r.err = none ∧ r.closedOld = false ∧ r.st.size = 0 ∧
      r.st.file = some ⟨(w.openinfo env.hostname env.pid now).filename, false⟩ := by
  rw [FastFileWriter.Rotate, FastFileWriter.rotate, ho] at hr
  simp only [if_true, hf] at hr
  rcases hsw : sweepGo w.MaxBackups (sortStrings env.globNames) with _ | ⟨del, kp⟩ <;>
    rw [hsw] at hr
  · simp at hr
  · simp only [Option.isSome_none, Option.some.injEq] at hr
    rw [← hr]
    exact ⟨rfl, rfl, rfl, rfl⟩

/-- Witness for C10 at a concrete never-written writer. -/
theorem rotate_without_handle_succeeds_witness :
    (⟨⟨0, some ⟨"/c.2024-02-03T04-05-06.log", false⟩⟩, none, false, true, false, [], []⟩
        : RotateResult).err = none ∧
    (⟨⟨0, some ⟨"/c.2024-02-03T04-05-06.log", false⟩⟩, none, false, true, false, [], []⟩
        : RotateResult).closedOld = false ∧
    (⟨⟨0, some ⟨"/c.2024-02-03T04-05-06.log", false⟩⟩, none, false, true, false, [], []⟩
        : RotateResult).st.size = 0 ∧
    (⟨⟨0, some ⟨"/c.2024-02-03T04-05-06.log", false⟩⟩, none, false, true, false, [], []⟩
        : RotateResult).st.file
      = some ⟨(FastFileWriter.openinfo ⟨"/c.log", 0, 1, 0, false, false, false⟩ "h" "1"
          ⟨⟨2024, 2, 3, 4, 5, 6⟩, ⟨2024, 2, 3, 4, 5, 6⟩⟩).filename, false⟩ :=
  rotate_without_handle_succeeds ⟨"/c.log", 0, 1, 0, false, false, false⟩ ⟨0, none⟩
    ⟨⟨2024, 2, 3, 4, 5, 6⟩, ⟨2024, 2, 3, 4, 5, 6⟩⟩ ⟨"h", "1", true, true, 0, 0, 0, []⟩ _
    rfl rfl (by decide)

end FastLog
